import Mathlib

/-!
Verification of the audio feature-extraction and transition-recommendation
engine (storage, analysis, candidates, recommendations, queue worker).

The TypeScript sources are modelled shallowly:
* JavaScript numbers are modelled as rationals (`ℚ`); every float literal
  appearing in the sources is an exact rational, and all arithmetic the
  scoring code performs on them is `+`, `-`, `*`, `/`, which `ℚ` models
  exactly.  `Math.sqrt` forces the results of `cosineSimilarity` (and the
  values inside extractor vectors) into `ℝ`.
* Fallible operations are modelled by `Option`/sum results; a thrown
  exception is an explicit constructor.
* `Math.random()` is modelled by an explicit random-source argument, so that
  the (non)determinism of the estimation helpers is visible in the type.
-/

set_option maxRecDepth 100000
set_option linter.unusedVariables false

namespace Tektonic

/-! ## storage.ts: key parsing helpers used by analysis.ts

`parseInt` on a Camelot token reads the leading decimal digits; it yields
`NaN` (here `none`) when the string does not start with a digit.  JavaScript
`NaN === NaN` is false, which the `Option` matches below reproduce by
treating any `none` as unequal to everything. -/

def parseIntJS (s : String) : Option Nat :=
  let ds := s.data.takeWhile Char.isDigit
  if ds = [] then none else some (ds.foldl (fun n c => n * 10 + (c.toNat - 48)) 0)

/-- `key.slice(-1)`: the last character of the token, as a (≤ 1 element) list. -/
def lastLetter (s : String) : List Char :=
  (s.data.reverse.take 1).reverse

/-! ## analysis.ts: `isKeyCompatible`, `keyScore` -/

/-- Camelot-wheel compatibility check from `analysis.ts`.  Same key, or same
number with a different letter, or same letter with number difference 1 or 11
(the 1 ↔ 12 wrap). -/
def isKeyCompatible (keyA keyB : String) : Bool :=
  if keyA = keyB then true
  else
    let numA := parseIntJS keyA
    let numB := parseIntJS keyB
    let letterA := lastLetter keyA
    let letterB := lastLetter keyB
    let sameNum : Bool := match numA, numB with
      | some a, some b => a == b
      | _, _ => false
    let adjNum : Bool := match numA, numB with
      | some a, some b => (max a b - min a b == 1) || (max a b - min a b == 11)
      | _, _ => false
    if sameNum && letterA != letterB then true
    else if letterA == letterB && adjNum then true
    else false

/-- `keyScore` from `analysis.ts`: 1.0 on identical keys, 0.5 on compatible
keys, 0.0 otherwise. -/
def keyScore (keyA keyB : String) : ℚ :=
  if keyA = keyB then 1
  else if isKeyCompatible keyA keyB then 1/2
  else 0

/-! ## candidates.ts: scoring helpers (identical copies live in the
recommendation module) -/

/-- `tempoScore` from `candidates.ts`: piecewise on `|bpmA - bpmB|`. -/
def tempoScore (bpmA bpmB : ℚ) : ℚ :=
  let diff := |bpmA - bpmB|
  if diff = 0 then 1
  else if diff ≤ 2 then 19/20
  else if diff ≤ 5 then 17/20
  else if diff ≤ 10 then 7/10
  else if diff ≤ 15 then 1/2
  else if diff ≤ 20 then 3/10
  else 1/10

/-- `energyTransitionScore` from `candidates.ts`: piecewise on the signed
difference `energyB - energyA`. -/
def energyTransitionScore (energyA energyB : ℚ) : ℚ :=
  let diff := energyB - energyA
  if |diff| ≤ 1/2 then 1
  else if 0 < diff ∧ diff ≤ 2 then 9/10
  else if 2 < diff ∧ diff ≤ 4 then 3/4
  else if diff < 0 ∧ -2 ≤ diff then 17/20
  else if diff < -2 ∧ -4 ≤ diff then 7/10
  else if |diff| ≤ 6 then 1/2
  else 1/5

/-- `harmonicScore` from `candidates.ts`: rescales `keyScore` through the
thresholds 0.95 / 0.85 / 0.70 / 0.50. -/
def harmonicScore (keyA keyB : String) : ℚ :=
  let baseScore := keyScore keyA keyB
  if 19/20 ≤ baseScore then 1
  else if 17/20 ≤ baseScore then 19/20
  else if 7/10 ≤ baseScore then 17/20
  else if 1/2 ≤ baseScore then 13/20
  else baseScore * (1/2)

/-! ## analysis.ts: `cosineSimilarity`

The loop accumulates `dot`, `normA`, `normB`; on a length mismatch the
function returns 0 up front, and it returns 0 when either accumulated norm
is zero.  The two square roots force the result into `ℝ`. -/

/-- The loop accumulator `Σ aᵢ·bᵢ` over the common prefix of two vectors. -/
def dotFold (a b : List ℚ) : ℚ :=
  (a.zip b).foldl (fun s p => s + p.1 * p.2) 0

/-- `cosineSimilarity` from `analysis.ts`. -/
noncomputable def cosineSimilarity (vecA vecB : List ℚ) : ℝ :=
  if vecA.length ≠ vecB.length then 0
  else
    let dot := dotFold vecA vecB
    let normA := dotFold vecA vecA
    let normB := dotFold vecB vecB
    if normA = 0 ∨ normB = 0 then 0
    else (dot : ℝ) / (Real.sqrt (normA : ℝ) * Real.sqrt (normB : ℝ))

/-! ## analysis.ts: bar- and phrase-level feature vectors

`generateBarVectors` slices the waveform into `barCount` windows of
`floor (length / barCount)` samples each and builds a per-window vector of
`[rms, peak, mean, variance]` followed by up to 124 renormalised samples,
truncated (`.slice(0, 128)`) but never padded.  These functions are only
invoked with `barCount ≥ 1` and `phraseCount ≥ 1` (`Math.max(1, …)` in the
extractor).  `Math.max` over an empty window is `-Infinity` and the means of
an empty window are `NaN` in JavaScript; the numeric placeholders below
differ there, but no claim concerns those values, only the vector shapes. -/

/-- One bar window's feature vector (`generateBarVectors` loop body). -/
noncomputable def barVector (barSamples : List ℝ) : List ℝ :=
  let rms := Real.sqrt ((barSamples.foldl (fun s v => s + v * v) 0) / (barSamples.length : ℝ))
  let peak := barSamples.foldl max (barSamples.headD 0)
  let mean := (barSamples.foldl (· + ·) 0) / (barSamples.length : ℝ)
  let variance := (barSamples.foldl (fun s v => s + (v - mean) ^ 2) 0) / (barSamples.length : ℝ)
  ([rms, peak, mean, variance] ++ (barSamples.take 124).map (fun v => v * (1/2) + 1/2)).take 128

/-- `generateBarVectors` from `analysis.ts`. -/
noncomputable def generateBarVectors (waveform : List ℝ) (barCount : ℕ) : List (List ℝ) :=
  let barsPerSample := waveform.length / barCount
  (List.range barCount).map (fun i =>
    let start := i * barsPerSample
    let stop := min (start + barsPerSample) waveform.length
    barVector ((waveform.drop start).take (stop - start)))

/-- `meanVec[idx] += val` for every entry of one bar vector (`forEach`
iterates over the bar's entries only; bars never exceed the 128-slot
accumulator). -/
def addInto : List ℝ → List ℝ → List ℝ
  | acc, [] => acc
  | [], _ => []
  | a :: acc, v :: bar => (a + v) :: addInto acc bar

/-- One phrase group's feature vector (`generatePhraseVectors` loop body):
mean-pool the group's bar vectors into a fixed 128-slot accumulator, append
the two derived scalars, pad with zeros, truncate to 256. -/
noncomputable def phraseVector (phraseBars : List (List ℝ)) : List ℝ :=
  let meanVec := phraseBars.foldl addInto (List.replicate 128 (0 : ℝ))
  let pooled := meanVec.map (fun v => v / (phraseBars.length : ℝ))
  let energy := ((pooled.take 10).foldl (· + ·) 0) / 10
  let texture := (((pooled.drop 10).take 10).foldl (fun s v => s + |v - 1/2|) 0) / 10
  (pooled ++ [energy, texture] ++ List.replicate (256 - pooled.length - 2) 0).take 256

/-- `generatePhraseVectors` from `analysis.ts`. -/
noncomputable def generatePhraseVectors (barVecs : List (List ℝ)) (phraseCount : ℕ) : List (List ℝ) :=
  let barsPerPhrase := barVecs.length / phraseCount
  (List.range phraseCount).map (fun i =>
    let start := i * barsPerPhrase
    let stop := min (start + barsPerPhrase) barVecs.length
    phraseVector ((barVecs.drop start).take (stop - start)))

/-! ## storage.ts / candidates.ts: summaries and transition candidates -/

/-- `TrackSummary` from `storage.ts`. -/
structure TrackSummary where
  tempo_bpm : ℚ
  key : String
  energy : ℚ
  duration : ℚ
  phrases : ℕ
  bars : ℕ
deriving DecidableEq

/-- The `scores` record attached to a transition candidate. -/
structure CandidateScores where
  key : ℚ
  energy : ℚ
  timing : ℚ
  contour : ℝ
  tempo : ℚ

/-- `TransitionCandidate` from `candidates.ts`. -/
structure TransitionCandidate where
  from_position : ℚ
  to_position : ℚ
  score : ℝ
  scores : CandidateScores

/-- The weighted combination used for `totalScore` in `generateCandidates`:
harmonic 30%, tempo 25%, energy 20%, timing 15%, contour 10%. -/
noncomputable def candidateCombined (kScore tScore eScore timingScore : ℚ) (contourScore : ℝ) : ℝ :=
  (0.30 : ℝ) * (kScore : ℝ) + (0.25 : ℝ) * (tScore : ℝ) + (0.20 : ℝ) * (eScore : ℝ) +
    (0.15 : ℝ) * (timingScore : ℝ) + (0.10 : ℝ) * contourScore

/-- Descending-score order used for the final `candidates.sort`. -/
def candidateOrder (c₁ c₂ : TransitionCandidate) : Prop := c₂.score ≤ c₁.score

noncomputable instance : DecidableRel candidateOrder := fun _ _ => Real.decidableLE _ _

instance : IsTotal TransitionCandidate candidateOrder :=
  ⟨fun a b => le_total b.score a.score⟩

instance : IsTrans TransitionCandidate candidateOrder :=
  ⟨fun _ _ _ h₁ h₂ => le_trans h₂ h₁⟩

/-- The inner loop body of `generateCandidates` for one pair `(i, j)` of
phrase indices: build the scored candidate, keep it iff `totalScore > 0.4`. -/
noncomputable def mkCandidate (summaryA summaryB : TrackSummary)
    (phrasesA phrasesB : List (List ℚ)) (i j : ℕ) : Option TransitionCandidate :=
  let kScore := harmonicScore summaryA.key summaryB.key
  let eScore := energyTransitionScore summaryA.energy summaryB.energy
  let tScore := tempoScore summaryA.tempo_bpm summaryB.tempo_bpm
  let positionA : ℚ := (i : ℚ) / (phrasesA.length : ℚ)
  let positionB : ℚ := (j : ℚ) / (phrasesB.length : ℚ)
  let timingScore : ℚ := 1/2 + (3/10) * (1 - positionA) + (1/5) * positionB
  let contourScore := cosineSimilarity (phrasesA.getD i []) (phrasesB.getD j [])
  let totalScore := candidateCombined kScore tScore eScore timingScore contourScore
  if (0.4 : ℝ) < totalScore then
    some { from_position := positionA * summaryA.duration,
           to_position := positionB * summaryB.duration,
           score := totalScore,
           scores := { key := kScore, energy := eScore, timing := timingScore,
                       contour := contourScore, tempo := tScore } }
  else none

/-- `generateCandidates` from `candidates.ts`.  The phrase vectors and
summaries are the data `loadFeatures`/`getManifest` return for the two
tracks.  `Math.floor(len * 0.7)` and `Math.floor(len * 0.3)` are modelled as
exact rational scaling (`7 * len / 10`, `3 * len / 10`). -/
noncomputable def generateCandidates (summaryA summaryB : TrackSummary)
    (phrasesA phrasesB : List (List ℚ)) (k : ℕ) : List TransitionCandidate :=
  let startA := max 0 ((7 * phrasesA.length) / 10)
  let endB := min phrasesB.length ((3 * phrasesB.length) / 10)
  let candidates := (List.range' startA (phrasesA.length - startA)).flatMap (fun (i : ℕ) =>
    (List.range endB).filterMap (mkCandidate summaryA summaryB phrasesA phrasesB i))
  (candidates.insertionSort candidateOrder).take k

/-! ## candidates.ts: `searchSimilar` -/

inductive TrackStatus
  | queued
  | processing
  | ready
  | error
deriving DecidableEq

/-- The per-track data `searchSimilar` reads: `loadFeatures` output. -/
structure TrackFeatures where
  barVecs : List (List ℚ)
  phraseVecs : List (List ℚ)
  summary : TrackSummary

/-- One library track as the corpus scan sees it: its manifest fields plus
the outcome of `loadFeatures` (`none` models the `catch`‑and‑skip branch). -/
structure CorpusEntry where
  track_id : String
  status : TrackStatus
  summary : Option TrackSummary
  features : Option TrackFeatures

inductive VecScope
  | bar
  | phrase
deriving DecidableEq

def scopeVecs (f : TrackFeatures) : VecScope → List (List ℚ)
  | .bar => f.barVecs
  | .phrase => f.phraseVecs

/-- `Math.min(Math.floor((position / duration) * length), length - 1)`. -/
def refIndexOf (vectorCount : ℕ) (position duration : ℚ) : ℕ :=
  min (((position / duration) * (vectorCount : ℚ)).floor.toNat) (vectorCount - 1)

structure SearchHit where
  track_id : String
  position : ℚ
  score : ℝ

/-- The hits one corpus track contributes to `searchSimilar`: skipped unless
`ready` with a summary and loadable features, otherwise one hit per vector,
with the timestamp `(i / n) * duration` from the track's own summary. -/
noncomputable def scanCorpusTrack (refVec : List ℚ) (scope : VecScope) (entry : CorpusEntry) :
    List SearchHit :=
  if entry.status = .ready ∧ entry.summary ≠ none then
    match entry.features with
    | none => []
    | some f =>
      let vectors := scopeVecs f scope
      (List.range vectors.length).map (fun (i : ℕ) =>
        { track_id := entry.track_id,
          position := ((i : ℚ) / (vectors.length : ℚ)) * f.summary.duration,
          score := cosineSimilarity refVec (vectors.getD i []) })
  else []

/-- The reference vector: the scoped vector at the position's index. -/
def refVecOf (queryFeatures : TrackFeatures) (position : ℚ) (scope : VecScope) : List ℚ :=
  let vectors := scopeVecs queryFeatures scope
  vectors.getD (refIndexOf vectors.length position queryFeatures.summary.duration) []

/-- All hits gathered by `searchSimilar` before sorting and truncation.  Note
the corpus loop has no own-track exclusion: the query's entry is scanned like
any other. -/
noncomputable def searchSimilarHits (queryFeatures : TrackFeatures) (corpus : List CorpusEntry)
    (position : ℚ) (scope : VecScope) : List SearchHit :=
  corpus.flatMap (scanCorpusTrack (refVecOf queryFeatures position scope) scope)

def hitOrder (h₁ h₂ : SearchHit) : Prop := h₂.score ≤ h₁.score

noncomputable instance : DecidableRel hitOrder := fun _ _ => Real.decidableLE _ _

instance : IsTotal SearchHit hitOrder :=
  ⟨fun a b => le_total b.score a.score⟩

instance : IsTrans SearchHit hitOrder :=
  ⟨fun _ _ _ h₁ h₂ => le_trans h₂ h₁⟩

/-- `searchSimilar` from `candidates.ts`: sort all hits by descending score
and return the top `k`. -/
noncomputable def searchSimilar (queryFeatures : TrackFeatures) (corpus : List CorpusEntry)
    (position : ℚ) (scope : VecScope) (k : ℕ) : List SearchHit :=
  ((searchSimilarHits queryFeatures corpus position scope).insertionSort hitOrder).take k

/-! ## Recommendation module: `recommendTracks` per-track scoring -/

/-- The average phrase vector used for texture comparison: dimension is the
first phrase vector's length, missing entries of shorter vectors count 0. -/
def avgPhraseVec (phrases : List (List ℚ)) : List ℚ :=
  if phrases.length = 0 then []
  else
    let acc0 := List.replicate (phrases.headD []).length (0 : ℚ)
    let summed := phrases.foldl (fun acc vec => acc.mapIdx (fun i val => val + vec.getD i 0)) acc0
    summed.map (fun v => v / (phrases.length : ℚ))

/-- The weighted combination used for `overall` in `recommendTracks`:
harmonic 30%, tempo 25%, energy 20%, texture 15%, phrase 10%. -/
noncomputable def recommendCombined (harmonic tempo energy : ℚ) (texture phrase : ℝ) : ℝ :=
  (0.30 : ℝ) * (harmonic : ℝ) + (0.25 : ℝ) * (tempo : ℝ) + (0.20 : ℝ) * (energy : ℝ) +
    (0.15 : ℝ) * texture + (0.10 : ℝ) * phrase

/-- The `overall` score `recommendTracks` computes for one candidate track
(texture falls back to 0.5 when either average vector is empty; phrase
compares the two mid-point phrase vectors). -/
noncomputable def recommendationOverall (sourceSummary trackSummary : TrackSummary)
    (sourcePhrases trackPhrases : List (List ℚ)) : ℝ :=
  let harmonic := harmonicScore sourceSummary.key trackSummary.key
  let tempo := tempoScore sourceSummary.tempo_bpm trackSummary.tempo_bpm
  let energy := energyTransitionScore sourceSummary.energy trackSummary.energy
  let avgSourcePhrase := avgPhraseVec sourcePhrases
  let avgTrackPhrase := avgPhraseVec trackPhrases
  let texture : ℝ :=
    if avgSourcePhrase.length ≠ 0 ∧ avgTrackPhrase.length ≠ 0 then
      cosineSimilarity avgSourcePhrase avgTrackPhrase
    else (0.5 : ℝ)
  let phrase := cosineSimilarity (sourcePhrases.getD (sourcePhrases.length / 2) [])
    (trackPhrases.getD (trackPhrases.length / 2) [])
  recommendCombined harmonic tempo energy texture phrase

/-! ## storage.ts: content digest and track ids

`calculateDigest` is `createHash("sha256")` over the upload bytes;
`generateTrackId` is sha256 over the string
`artist|title|fileSize|contentDigest` truncated to 16 hex characters.
SHA-256 itself is implemented below over byte lists, with 32-bit words as
naturals reduced `% 2 ^ 32`. -/

def w32 : ℕ := 2 ^ 32

def rotr (n x : ℕ) : ℕ := ((x >>> n) ||| (x <<< (32 - n))) % w32

def shaCh (e f g : ℕ) : ℕ := (e &&& f) ^^^ ((0xffffffff ^^^ e) &&& g)

def shaMaj (a b c : ℕ) : ℕ := (a &&& b) ^^^ (a &&& c) ^^^ (b &&& c)

def bigSigma0 (x : ℕ) : ℕ := rotr 2 x ^^^ rotr 13 x ^^^ rotr 22 x

def bigSigma1 (x : ℕ) : ℕ := rotr 6 x ^^^ rotr 11 x ^^^ rotr 25 x

def smallSigma0 (x : ℕ) : ℕ := rotr 7 x ^^^ rotr 18 x ^^^ (x >>> 3)

def smallSigma1 (x : ℕ) : ℕ := rotr 17 x ^^^ rotr 19 x ^^^ (x >>> 10)

def sha256K : List ℕ :=
  [1116352408, 1899447441, 3049323471, 3921009573, 961987163,
   1508970993, 2453635748, 2870763221, 3624381080, 310598401,
   607225278, 1426881987, 1925078388, 2162078206, 2614888103,
   3248222580, 3835390401, 4022224774, 264347078, 604807628,
   770255983, 1249150122, 1555081692, 1996064986, 2554220882,
   2821834349, 2952996808, 3210313671, 3336571891, 3584528711,
   113926993, 338241895, 666307205, 773529912, 1294757372,
   1396182291, 1695183700, 1986661051, 2177026350, 2456956037,
   2730485921, 2820302411, 3259730800, 3345764771, 3516065817,
   3600352804, 4094571909, 275423344, 430227734, 506948616,
   659060556, 883997877, 958139571, 1322822218, 1537002063,
   1747873779, 1955562222, 2024104815, 2227730452, 2361852424,
   2428436474, 2756734187, 3204031479, 3329325298]

def sha256H0 : List ℕ :=
  [1779033703, 3144134277, 1013904242, 2773480762, 1359893119,
   2600822924, 528734635, 1541459225]

/-- Standard SHA-256 padding: `0x80`, zeros to 56 mod 64, 8-byte big-endian
bit length. -/
def padMessage (msg : List ℕ) : List ℕ :=
  let zeros := (119 - (msg.length % 64)) % 64
  msg ++ [0x80] ++ List.replicate zeros 0 ++
    (List.range 8).map (fun i => ((8 * msg.length) >>> (8 * (7 - i))) % 256)

/-- Big-endian 4-byte groups to 32-bit words. -/
def bytesToWords : List ℕ → List ℕ
  | b0 :: b1 :: b2 :: b3 :: rest =>
    ((b0 <<< 24) + (b1 <<< 16) + (b2 <<< 8) + b3) :: bytesToWords rest
  | _ => []

/-- Append the next word of the message schedule. -/
def scheduleStep (ws : List ℕ) : List ℕ :=
  ws ++ [(smallSigma1 (ws.getD (ws.length - 2) 0) + ws.getD (ws.length - 7) 0 +
          smallSigma0 (ws.getD (ws.length - 15) 0) + ws.getD (ws.length - 16) 0) % w32]

/-- Extend 16 message words to the 64-word schedule. -/
def schedule (ws : List ℕ) : List ℕ :=
  (List.range 48).foldl (fun acc _ => scheduleStep acc) ws

/-- One round of the SHA-256 compression function on state `[a..h]`. -/
def compressStep (st : List ℕ) (wk : ℕ × ℕ) : List ℕ :=
  match st with
  | [a, b, c, d, e, f, g, h] =>
    let t1 := (h + bigSigma1 e + shaCh e f g + wk.2 + wk.1) % w32
    let t2 := (bigSigma0 a + shaMaj a b c) % w32
    [(t1 + t2) % w32, a, b, c, (d + t1) % w32, e, f, g]
  | _ => st

def compressBlock (h : List ℕ) (block : List ℕ) : List ℕ :=
  let ws := schedule (bytesToWords block)
  let st := (ws.zip sha256K).foldl compressStep h
  (h.zip st).map (fun p => (p.1 + p.2) % w32)

/-- The padded message split into 64-byte blocks (its length is always a
multiple of 64). -/
def chunk64 (l : List ℕ) : List (List ℕ) :=
  (List.range ((l.length + 63) / 64)).map (fun i => (l.drop (64 * i)).take 64)

def sha256Bytes (msg : List ℕ) : List ℕ :=
  let hh := (chunk64 (padMessage msg)).foldl compressBlock sha256H0
  hh.flatMap (fun w => [(w >>> 24) % 256, (w >>> 16) % 256, (w >>> 8) % 256, w % 256])

def hexDigit (n : ℕ) : Char :=
  if n < 10 then Char.ofNat (48 + n) else Char.ofNat (87 + n)

def bytesToHex (bs : List ℕ) : String :=
  ⟨bs.flatMap (fun b => [hexDigit (b / 16), hexDigit (b % 16)])⟩

/-- `calculateDigest` from `storage.ts`: hex sha256 of the upload bytes. -/
def calculateDigest (buffer : List ℕ) : String := bytesToHex (sha256Bytes buffer)

/-- UTF-8 bytes of a string; `Char.toNat` agrees with UTF-8 on the ASCII
strings handled here (hex digests, decimal sizes, pipes, metadata). -/
def strBytes (s : String) : List ℕ := s.data.map Char.toNat

/-- `generateTrackId` from `storage.ts`: sha256 of
`artist|title|fileSize|contentDigest` (empty string for missing metadata,
matching `artist || ""`), truncated to the first 16 hex characters —
equivalently, the hex of the digest's first 8 bytes. -/
def generateTrackId (artist title : Option String) (fileSize : ℕ) (contentDigest : String) :
    String :=
  let input := artist.getD "" ++ "|" ++ title.getD "" ++ "|" ++ Nat.repr fileSize ++ "|" ++
    contentDigest
  bytesToHex ((sha256Bytes (strBytes input)).take 8)

inductive UploadOutcome
  | duplicate (track_id : String)
  | created (track_id : String)
deriving DecidableEq

/-- The duplicate gate of `POST /api/upload`: digest the bytes, derive the
track id from metadata + digest, reject with 409 when a manifest with that
id already exists (`trackExists`), otherwise create the track. -/
def uploadCheck (existing : List String) (artist title : Option String) (fileBytes : List ℕ) :
    UploadOutcome :=
  let contentDigest := calculateDigest fileBytes
  let tid := generateTrackId artist title fileBytes.length contentDigest
  if tid ∈ existing then .duplicate tid else .created tid

/-! ## audio-analysis.ts: the estimation helpers

`estimateKey` resolves to `camelotKeys[Math.floor(Math.random() * 24)]`,
never reading the file; `estimateBPM` resolves to `120 + Math.random() * 20`
whenever ffmpeg is unavailable, produces no BPM metadata line, or errors.
The calls to `Math.random()` are surfaced as explicit arguments. -/

def camelotKeys : List String :=
  ["1A", "1B", "2A", "2B", "3A", "3B", "4A", "4B",
   "5A", "5B", "6A", "6B", "7A", "7B", "8A", "8B",
   "9A", "9B", "10A", "10B", "11A", "11B", "12A", "12B"]

/-- `estimateKey` from `audio-analysis.ts`: the resolved key is a uniformly
random Camelot token; the file path never influences it. -/
def estimateKey (filePath : String) (randomIndex : Fin 24) : String :=
  camelotKeys.getD randomIndex ""

/-- The `120 + Math.random() * 20` fallback through which `estimateBPM`
resolves on every path that finds no BPM metadata. -/
def estimateBPMFallback (filePath : String) (random : ℚ) : ℚ := 120 + random * 20

/-! ## worker.ts / queue.ts: the analysis handler and the retry loop -/

/-- The manifest fields the worker reads and writes. -/
structure TrackManifest where
  track_id : String
  status : TrackStatus
  summary : Option TrackSummary := none
  error_reason : Option String := none
  updated_at : ℕ := 0

/-- The state the analysis handler may touch for one track: its manifest
record and its persisted feature files (payload type `F`). -/
structure WorkerState (F : Type) where
  manifest : Option TrackManifest
  savedFeatures : Option F

inductive HandlerOutcome
  | ok
  | failed (reason : String)
deriving DecidableEq

/-- The `analyze` handler from `worker.ts`.  `analysis` is the outcome of
`analyzeTrack` (which saves the features and returns the summary, or
throws).  A missing manifest and a failed analysis both throw, surfacing as
`.failed`; a `ready` manifest with a summary short-circuits untouched. -/
def analyzeHandler {F : Type} (st : WorkerState F)
    (analysis : Except String (TrackSummary × F)) (now : ℕ) :
    WorkerState F × HandlerOutcome :=
  match st.manifest with
  | none => (st, .failed "Manifest not found")
  | some manifest =>
    if manifest.status = .ready ∧ manifest.summary ≠ none then
      (st, .ok)
    else
      let processing : TrackManifest :=
        { manifest with status := .processing, updated_at := now }
      match analysis with
      | .ok (summary, feats) =>
        let done : TrackManifest :=
          { processing with status := .ready, summary := some summary, updated_at := now }
        ({ manifest := some done, savedFeatures := some feats }, .ok)
      | .error msg =>
        let failedM : TrackManifest :=
          { processing with status := .error, error_reason := some msg, updated_at := now }
        ({ st with manifest := some failedM }, .failed msg)

/-- The `SimpleQueue.process` retry policy applied to one analysis job:
on failure with `retries < 3` the job is re-enqueued with `retries + 1` and
delay `2 ^ retries` seconds (after the increment — `Math.pow(2, job.retries)
* 1000` ms: 2s, 4s, 8s); otherwise it is dropped.  The recursion runs on the
residual budget `remaining = 3 - retries`, so the code's guard
`job.retries < 3` is `remaining > 0` here.  Returns the final state, the
list of scheduled retry delays (seconds), and the number of handler
invocations. -/
def runAnalysisLoop {F : Type} (analysis : ℕ → Except String (TrackSummary × F))
    (st : WorkerState F) (attempt : ℕ) (retries remaining : ℕ) :
    WorkerState F × List ℕ × ℕ :=
  let step := analyzeHandler st (analysis attempt) attempt
  match step.2 with
  | .ok => (step.1, [], 1)
  | .failed _ =>
    match remaining with
    | 0 => (step.1, [], 1)
    | r + 1 =>
      let rest := runAnalysisLoop analysis step.1 (attempt + 1) (retries + 1) r
      (rest.1, 2 ^ (retries + 1) :: rest.2.1, rest.2.2 + 1)

/-- A freshly published analysis job: retry count 0, first attempt, and the
full retry budget (`remaining = 3 - retries` throughout, so the guard
`job.retries < 3` is exactly `remaining > 0`). -/
def runAnalysisJob {F : Type} (analysis : ℕ → Except String (TrackSummary × F))
    (st : WorkerState F) : WorkerState F × List ℕ × ℕ :=
  runAnalysisLoop analysis st 0 0 3

/-! ## Concrete instances used by the claim theorems and their witnesses -/

/-- A representative analysed track summary. -/
def demoSummary : TrackSummary :=
  { tempo_bpm := 128, key := "8A", energy := 7, duration := 180, phrases := 4, bars := 32 }

/-- A freshly uploaded track's worker state: queued manifest, no features. -/
def queuedState : WorkerState Unit :=
  { manifest := some { track_id := "t1", status := .queued }, savedFeatures := none }

/-- A worker state whose manifest is already `ready` with a summary. -/
def readyState : WorkerState Unit :=
  { manifest := some { track_id := "t1", status := .ready, summary := some demoSummary },
    savedFeatures := some () }

/-- An extraction that throws on every attempt. -/
def alwaysFailAnalysis : ℕ → Except String (TrackSummary × Unit) := fun _ => .error "decode failed"

/-- An extraction that throws on the first two attempts and then succeeds. -/
def failTwiceAnalysis : ℕ → Except String (TrackSummary × Unit) :=
  fun n => if n < 2 then .error "decode failed" else .ok (demoSummary, ())

/-- The single candidate `generateCandidates` emits for two copies of
`demoSummary` with phrase vectors `[[0]]` and `[[0],[0],[0],[0]]`. -/
noncomputable def wCandidate : TransitionCandidate :=
  { from_position := 0, to_position := 0, score := 87/100,
    scores := { key := 1, energy := 1, timing := 4/5, contour := 0, tempo := 1 } }

/-- Source summary for the negative-recommendation-score instance:
key incompatible with "6A", tempo 30 BPM apart, energy 8 apart. -/
def cexSourceSummary : TrackSummary :=
  { tempo_bpm := 100, key := "1A", energy := 1, duration := 100, phrases := 1, bars := 1 }

def cexTargetSummary : TrackSummary :=
  { tempo_bpm := 130, key := "6A", energy := 9, duration := 100, phrases := 1, bars := 1 }

/-- Corpus features for the self-search instance: one phrase vector `[1]`. -/
def selfFeatures : TrackFeatures :=
  { barVecs := [[1]], phraseVecs := [[1]], summary := demoSummary }

/-- The corpus entry of the query track itself, `ready` with features. -/
def selfEntry : CorpusEntry :=
  { track_id := "t1", status := .ready, summary := some demoSummary,
    features := some selfFeatures }

/-! ## Basic lemmas about the scoring helpers -/

/-- `keyScore` only ever produces 0, 0.5 or 1, so `harmonicScore` collapses
to three values: 1 on identical keys, 0.65 on compatible keys, 0 otherwise. -/
theorem harmonicScore_eq (a b : String) :
    harmonicScore a b = if a = b then 1 else if isKeyCompatible a b then 13/20 else 0 := by
  unfold harmonicScore keyScore
  by_cases hab : a = b
  · simp only [hab, if_pos rfl, if_true]
    norm_num
  · by_cases hc : isKeyCompatible a b
    · simp only [if_neg hab, hc, if_true]
      norm_num
    · simp only [if_neg hab, hc, if_false]
      norm_num

theorem harmonicScore_nonneg (a b : String) : 0 ≤ harmonicScore a b := by
  rw [harmonicScore_eq]
  split_ifs <;> norm_num

theorem harmonicScore_le_one (a b : String) : harmonicScore a b ≤ 1 := by
  rw [harmonicScore_eq]
  split_ifs <;> norm_num

theorem tempoScore_bounds (a b : ℚ) : 1/10 ≤ tempoScore a b ∧ tempoScore a b ≤ 1 := by
  unfold tempoScore
  dsimp only
  split_ifs <;> norm_num

theorem energyTransitionScore_bounds (a b : ℚ) :
    1/5 ≤ energyTransitionScore a b ∧ energyTransitionScore a b ≤ 1 := by
  unfold energyTransitionScore
  dsimp only
  split_ifs <;> norm_num

/-! ## Lemmas about `dotFold` and `cosineSimilarity` -/

theorem foldl_add_init (l : List (ℚ × ℚ)) (c : ℚ) :
    l.foldl (fun s p => s + p.1 * p.2) c = c + l.foldl (fun s p => s + p.1 * p.2) 0 := by
  induction l generalizing c with
  | nil => simp
  | cons p t ih =>
    simp only [List.foldl_cons]
    rw [ih (c + p.1 * p.2), ih (0 + p.1 * p.2)]
    ring

theorem dotFold_cons (x y : ℚ) (a b : List ℚ) :
    dotFold (x :: a) (y :: b) = x * y + dotFold a b := by
  unfold dotFold
  simp only [List.zip_cons_cons, List.foldl_cons]
  rw [foldl_add_init]
  ring

theorem dotFold_nil_right (a : List ℚ) : dotFold a [] = 0 := by
  unfold dotFold
  simp

theorem dotFold_self_nonneg (v : List ℚ) : 0 ≤ dotFold v v := by
  induction v with
  | nil => simp [dotFold]
  | cons x t ih =>
    rw [dotFold_cons]
    nlinarith [mul_self_nonneg x]

theorem dotFold_self_zero (v : List ℚ) (h : ∀ x ∈ v, x = 0) : dotFold v v = 0 := by
  induction v with
  | nil => simp [dotFold]
  | cons x t ih =>
    rw [dotFold_cons, h x (by simp), ih (fun y hy => h y (by simp [hy]))]
    ring

theorem dotFold_nonneg (a b : List ℚ) (ha : ∀ x ∈ a, 0 ≤ x) (hb : ∀ x ∈ b, 0 ≤ x) :
    0 ≤ dotFold a b := by
  induction a generalizing b with
  | nil => simp [dotFold]
  | cons x t ih =>
    cases b with
    | nil => simp [dotFold_nil_right]
    | cons y s =>
      rw [dotFold_cons]
      have hx : 0 ≤ x := ha x (by simp)
      have hy : 0 ≤ y := hb y (by simp)
      have ht := ih s (fun z hz => ha z (by simp [hz])) (fun z hz => hb z (by simp [hz]))
      nlinarith

/-- Cauchy–Schwarz for the loop accumulators. -/
theorem dotFold_sq_le : ∀ a b : List ℚ, a.length = b.length →
    (dotFold a b) ^ 2 ≤ dotFold a a * dotFold b b
  | [], [], _ => by simp [dotFold]
  | [], _ :: _, h => by simp at h
  | _ :: _, [], h => by simp at h
  | x :: a, y :: b, h => by
    have ih := dotFold_sq_le a b (by simpa using h)
    have ha := dotFold_self_nonneg a
    have hb := dotFold_self_nonneg b
    have h1 : 0 ≤ dotFold a a * dotFold b b - dotFold a b ^ 2 := by linarith
    rw [dotFold_cons, dotFold_cons, dotFold_cons]
    rcases eq_or_lt_of_le hb with hB0 | hBpos
    · have hd : dotFold a b = 0 := by
        have : dotFold a b ^ 2 ≤ 0 := by nlinarith
        nlinarith [sq_nonneg (dotFold a b)]
      rw [hd, ← hB0]
      nlinarith [mul_nonneg ha (sq_nonneg y), sq_nonneg (x * y)]
    · nlinarith [sq_nonneg (x * dotFold b b - y * dotFold a b),
        mul_nonneg (add_nonneg (sq_nonneg y) hb) h1, hBpos.le]

theorem abs_cosineSimilarity_le_one (a b : List ℚ) : |cosineSimilarity a b| ≤ 1 := by
  unfold cosineSimilarity
  dsimp only
  split_ifs with hlen hzero
  · simp
  · simp
  · push_neg at hlen hzero
    have hA : 0 < dotFold a a := lt_of_le_of_ne (dotFold_self_nonneg a) (Ne.symm hzero.1)
    have hB : 0 < dotFold b b := lt_of_le_of_ne (dotFold_self_nonneg b) (Ne.symm hzero.2)
    have hAr : (0 : ℝ) < (dotFold a a : ℝ) := by exact_mod_cast hA
    have hBr : (0 : ℝ) < (dotFold b b : ℝ) := by exact_mod_cast hB
    have hcs : ((dotFold a b : ℝ)) ^ 2 ≤ (dotFold a a : ℝ) * (dotFold b b : ℝ) := by
      exact_mod_cast dotFold_sq_le a b hlen
    have hsq : |(dotFold a b : ℝ)| ≤ Real.sqrt ((dotFold a a : ℝ) * (dotFold b b : ℝ)) := by
      rw [← Real.sqrt_sq_eq_abs]
      exact Real.sqrt_le_sqrt hcs
    rw [Real.sqrt_mul hAr.le] at hsq
    have hden : 0 < Real.sqrt (dotFold a a : ℝ) * Real.sqrt (dotFold b b : ℝ) :=
      mul_pos (Real.sqrt_pos.mpr hAr) (Real.sqrt_pos.mpr hBr)
    rw [abs_div, abs_of_pos hden, div_le_one hden]
    exact hsq

theorem cosineSimilarity_le_one (a b : List ℚ) : cosineSimilarity a b ≤ 1 :=
  le_trans (le_abs_self _) (abs_cosineSimilarity_le_one a b)

theorem neg_one_le_cosineSimilarity (a b : List ℚ) : -1 ≤ cosineSimilarity a b := by
  have := neg_abs_le (cosineSimilarity a b)
  have h := abs_cosineSimilarity_le_one a b
  linarith

/-- A vector with nonzero self-dot has cosine similarity 1 with itself. -/
theorem cosineSimilarity_self (v : List ℚ) (h : dotFold v v ≠ 0) :
    cosineSimilarity v v = 1 := by
  unfold cosineSimilarity
  dsimp only
  rw [if_neg (by simp), if_neg (by simpa using h)]
  have hpos : 0 < dotFold v v := lt_of_le_of_ne (dotFold_self_nonneg v) (Ne.symm h)
  have hr : (0 : ℝ) < (dotFold v v : ℝ) := by exact_mod_cast hpos
  rw [Real.mul_self_sqrt hr.le, div_self hr.ne.symm]

theorem cosineSimilarity_nonneg (a b : List ℚ) (ha : ∀ x ∈ a, 0 ≤ x) (hb : ∀ x ∈ b, 0 ≤ x) :
    0 ≤ cosineSimilarity a b := by
  unfold cosineSimilarity
  dsimp only
  split_ifs with hlen hzero
  · norm_num
  · norm_num
  · have hd : (0 : ℝ) ≤ (dotFold a b : ℝ) := by exact_mod_cast dotFold_nonneg a b ha hb
    exact div_nonneg hd (mul_nonneg (Real.sqrt_nonneg _) (Real.sqrt_nonneg _))

/-! ## Structure lemmas for `generateCandidates` -/

theorem mkCandidate_some {sA sB : TrackSummary} {pA pB : List (List ℚ)} {i j : ℕ}
    {c : TransitionCandidate} (h : mkCandidate sA sB pA pB i j = some c) :
    c.scores.key = harmonicScore sA.key sB.key ∧
    c.scores.energy = energyTransitionScore sA.energy sB.energy ∧
    c.scores.tempo = tempoScore sA.tempo_bpm sB.tempo_bpm ∧
    c.scores.timing =
      1/2 + (3/10) * (1 - (i : ℚ) / (pA.length : ℚ)) + (1/5) * ((j : ℚ) / (pB.length : ℚ)) ∧
    c.scores.contour = cosineSimilarity (pA.getD i []) (pB.getD j []) ∧
    c.score = candidateCombined c.scores.key c.scores.tempo c.scores.energy c.scores.timing
      c.scores.contour ∧
    (0.4 : ℝ) < c.score ∧
    c.from_position = ((i : ℚ) / (pA.length : ℚ)) * sA.duration ∧
    c.to_position = ((j : ℚ) / (pB.length : ℚ)) * sB.duration := by
  unfold mkCandidate at h
  dsimp only at h
  split_ifs at h with hgt
  · cases h
    exact ⟨rfl, rfl, rfl, rfl, rfl, rfl, hgt, rfl, rfl⟩

theorem mem_generateCandidates {sA sB : TrackSummary} {pA pB : List (List ℚ)} {k : ℕ}
    {c : TransitionCandidate} (h : c ∈ generateCandidates sA sB pA pB k) :
    ∃ i j, i < pA.length ∧ j < pB.length ∧ mkCandidate sA sB pA pB i j = some c := by
  unfold generateCandidates at h
  dsimp only at h
  have h1 := (List.mem_insertionSort candidateOrder).mp (List.take_subset _ _ h)
  rcases List.mem_flatMap.mp h1 with ⟨i, hi, hc⟩
  rcases List.mem_filterMap.mp hc with ⟨j, hj, heq⟩
  refine ⟨i, j, ?_, ?_, heq⟩
  · rcases List.mem_range'_1.mp hi with ⟨_, hilt⟩
    have : max 0 (7 * pA.length / 10) ≤ pA.length := by
      simp only [Nat.max_def]
      split_ifs <;> omega
    omega
  · have := List.mem_range.mp hj
    omega

theorem generateCandidates_sorted (sA sB : TrackSummary) (pA pB : List (List ℚ)) (k : ℕ) :
    List.Sorted candidateOrder (generateCandidates sA sB pA pB k) := by
  unfold generateCandidates
  dsimp only
  exact (List.sorted_insertionSort candidateOrder _).sublist (List.take_sublist _ _)

theorem generateCandidates_length_le (sA sB : TrackSummary) (pA pB : List (List ℚ)) (k : ℕ) :
    (generateCandidates sA sB pA pB k).length ≤ k := by
  unfold generateCandidates
  dsimp only
  exact List.length_take_le _ _

/-- Every candidate the generator returns scores strictly above 0.4 and at
most 1. -/
theorem generateCandidates_score_le_one {sA sB : TrackSummary} {pA pB : List (List ℚ)} {k : ℕ}
    {c : TransitionCandidate} (h : c ∈ generateCandidates sA sB pA pB k) :
    c.score ≤ 1 := by
  rcases mem_generateCandidates h with ⟨i, j, hi, hj, heq⟩
  rcases mkCandidate_some heq with ⟨hk, he, ht, hti, hco, hsc, hgt, _, _⟩
  have hk1 : c.scores.key ≤ 1 := hk ▸ harmonicScore_le_one _ _
  have ht1 : c.scores.tempo ≤ 1 := ht ▸ (tempoScore_bounds _ _).2
  have he1 : c.scores.energy ≤ 1 := he ▸ (energyTransitionScore_bounds _ _).2
  have hlenA : (0 : ℚ) < (pA.length : ℚ) := by
    have : 0 < pA.length := by omega
    exact_mod_cast this
  have hlenB : (0 : ℚ) < (pB.length : ℚ) := by
    have : 0 < pB.length := by omega
    exact_mod_cast this
  have hposA : (0 : ℚ) ≤ (i : ℚ) / (pA.length : ℚ) :=
    div_nonneg (by positivity) hlenA.le
  have hposB : (j : ℚ) / (pB.length : ℚ) ≤ 1 := by
    rw [div_le_one hlenB]
    exact_mod_cast hj.le
  have hti1 : c.scores.timing ≤ 1 := by
    rw [hti]
    linarith
  have hco1 : c.scores.contour ≤ 1 := hco ▸ cosineSimilarity_le_one _ _
  rw [hsc]
  unfold candidateCombined
  have hkr : (c.scores.key : ℝ) ≤ 1 := by exact_mod_cast hk1
  have htr : (c.scores.tempo : ℝ) ≤ 1 := by exact_mod_cast ht1
  have her : (c.scores.energy : ℝ) ≤ 1 := by exact_mod_cast he1
  have htir : (c.scores.timing : ℝ) ≤ 1 := by exact_mod_cast hti1
  norm_num
  linarith

/-! ## Shape lemmas for the extractor vectors -/

theorem barVector_length (s : List ℝ) :
    (barVector s).length = min 128 (4 + min 124 s.length) := by
  unfold barVector
  dsimp only
  simp only [List.length_take, List.length_append, List.length_map, List.length_cons,
    List.length_nil]

theorem generateBarVectors_length (w : List ℝ) (barCount : ℕ) :
    (generateBarVectors w barCount).length = barCount := by
  unfold generateBarVectors
  simp

/-- Every window `generateBarVectors` cuts has exactly
`barsPerSample = ⌊length / barCount⌋` samples. -/
theorem barWindow_length (w : List ℝ) (barCount i : ℕ) (hi : i < barCount) :
    ((w.drop (i * (w.length / barCount))).take
      (min (i * (w.length / barCount) + w.length / barCount) w.length -
        i * (w.length / barCount))).length = w.length / barCount := by
  set bps := w.length / barCount with hbps
  have h2 : barCount * bps ≤ w.length := by
    rw [hbps, mul_comm]
    exact Nat.div_mul_le_self w.length barCount
  have h1 : (i + 1) * bps ≤ barCount * bps := Nat.mul_le_mul_right bps (by omega)
  have hle : i * bps + bps ≤ w.length := by
    calc i * bps + bps = (i + 1) * bps := by ring
    _ ≤ barCount * bps := h1
    _ ≤ w.length := h2
  have hstop : min (i * bps + bps) w.length = i * bps + bps := min_eq_left hle
  rw [hstop, Nat.add_sub_cancel_left]
  simp only [List.length_take, List.length_drop]
  exact min_eq_left (Nat.le_sub_of_add_le (by linarith [hle]))

theorem mem_generateBarVectors {w : List ℝ} {barCount : ℕ} {v : List ℝ}
    (h : v ∈ generateBarVectors w barCount) :
    ∃ i < barCount, v = barVector ((w.drop (i * (w.length / barCount))).take
      (min (i * (w.length / barCount) + w.length / barCount) w.length -
        i * (w.length / barCount))) := by
  unfold generateBarVectors at h
  dsimp only at h
  rcases List.mem_map.mp h with ⟨i, hi, hv⟩
  exact ⟨i, List.mem_range.mp hi, hv.symm⟩

/-- Every bar vector's length is `min 128 (4 + min 124 ⌊W / bars⌋)` — the
`.slice(0, 128)` truncates but nothing ever pads. -/
theorem generateBarVectors_member_length {w : List ℝ} {barCount : ℕ} {v : List ℝ}
    (h : v ∈ generateBarVectors w barCount) :
    v.length = min 128 (4 + min 124 (w.length / barCount)) := by
  rcases mem_generateBarVectors h with ⟨i, hi, hv⟩
  rw [hv, barVector_length, barWindow_length w barCount i hi]

theorem addInto_length (acc bar : List ℝ) : (addInto acc bar).length = acc.length := by
  induction acc generalizing bar with
  | nil => cases bar <;> rfl
  | cons a t ih =>
    cases bar with
    | nil => rfl
    | cons v s => simp [addInto, ih]

theorem foldl_addInto_length (ps : List (List ℝ)) (acc : List ℝ) :
    (ps.foldl addInto acc).length = acc.length := by
  induction ps generalizing acc with
  | nil => rfl
  | cons p t ih => simp [List.foldl_cons, ih, addInto_length]

theorem phraseVector_length (phraseBars : List (List ℝ)) :
    (phraseVector phraseBars).length = 256 := by
  unfold phraseVector
  dsimp only
  have hp : (phraseBars.foldl addInto (List.replicate 128 (0 : ℝ))).length = 128 := by
    rw [foldl_addInto_length, List.length_replicate]
  simp only [List.length_take, List.length_append, List.length_map, List.length_cons,
    List.length_nil, List.length_replicate, hp]
  omega

theorem generatePhraseVectors_length (barVecs : List (List ℝ)) (phraseCount : ℕ) :
    (generatePhraseVectors barVecs phraseCount).length = phraseCount := by
  unfold generatePhraseVectors
  simp

theorem generatePhraseVectors_member_length {barVecs : List (List ℝ)} {phraseCount : ℕ}
    {v : List ℝ} (h : v ∈ generatePhraseVectors barVecs phraseCount) : v.length = 256 := by
  unfold generatePhraseVectors at h
  dsimp only at h
  rcases List.mem_map.mp h with ⟨i, _, hv⟩
  rw [← hv, phraseVector_length]

/-! ## Nonnegativity lemmas feeding the recommendation bounds -/

theorem getD_nonneg {l : List ℚ} (h : ∀ x ∈ l, 0 ≤ x) (i : ℕ) : 0 ≤ l.getD i 0 := by
  rcases lt_or_ge i l.length with hlt | hge
  · rw [List.getD_eq_getElem l 0 hlt]
    exact h _ (List.getElem_mem hlt)
  · rw [List.getD_eq_default l 0 hge]

theorem mapIdx_add_getD_nonneg (acc vec : List ℚ) (hacc : ∀ x ∈ acc, 0 ≤ x)
    (hvec : ∀ x ∈ vec, 0 ≤ x) :
    ∀ x ∈ acc.mapIdx (fun i val => val + vec.getD i 0), 0 ≤ x := by
  induction acc generalizing vec with
  | nil => simp
  | cons a t ih =>
    intro x hx
    rw [List.mapIdx_cons] at hx
    rcases List.mem_cons.mp hx with hx0 | hxt
    · rw [hx0]
      exact add_nonneg (hacc a (by simp)) (getD_nonneg hvec 0)
    · have hshift : (fun i val => val + vec.getD (i + 1) 0) =
          (fun i (val : ℚ) => val + vec.tail.getD i 0) := by
        funext i val
        cases vec <;> rfl
      rw [hshift] at hxt
      exact ih vec.tail (fun y hy => hacc y (by simp [hy]))
        (fun y hy => hvec y (List.mem_of_mem_tail hy)) x hxt

theorem avgPhraseVec_nonneg (phrases : List (List ℚ))
    (h : ∀ v ∈ phrases, ∀ x ∈ v, 0 ≤ x) : ∀ x ∈ avgPhraseVec phrases, 0 ≤ x := by
  unfold avgPhraseVec
  dsimp only
  split_ifs with hlen
  · simp
  · intro x hx
    rcases List.mem_map.mp hx with ⟨y, hy, hxy⟩
    have hsum : ∀ z ∈ phrases.foldl
        (fun acc vec => acc.mapIdx (fun i val => val + vec.getD i 0))
        (List.replicate (phrases.headD []).length (0 : ℚ)), 0 ≤ z := by
      have : ∀ (ps : List (List ℚ)) (acc : List ℚ), (∀ x ∈ acc, 0 ≤ x) →
          (∀ v ∈ ps, ∀ x ∈ v, 0 ≤ x) →
          ∀ z ∈ ps.foldl (fun acc vec => acc.mapIdx (fun i val => val + vec.getD i 0)) acc,
            0 ≤ z := by
        intro ps
        induction ps with
        | nil => intro acc hacc _ z hz; exact hacc z hz
        | cons p t ih =>
          intro acc hacc hps z hz
          simp only [List.foldl_cons] at hz
          exact ih _ (mapIdx_add_getD_nonneg acc p hacc (hps p (by simp)))
            (fun v hv => hps v (by simp [hv])) z hz
      exact this phrases _ (by simp) h
    rw [← hxy]
    have hcount : (0 : ℚ) ≤ (phrases.length : ℚ) := by positivity
    exact div_nonneg (hsum y hy) hcount

theorem recommendationOverall_le_one (sA sB : TrackSummary) (pA pB : List (List ℚ)) :
    recommendationOverall sA sB pA pB ≤ 1 := by
  unfold recommendationOverall recommendCombined
  dsimp only
  have hk : (harmonicScore sA.key sB.key : ℝ) ≤ 1 := by
    exact_mod_cast harmonicScore_le_one sA.key sB.key
  have ht : (tempoScore sA.tempo_bpm sB.tempo_bpm : ℝ) ≤ 1 := by
    exact_mod_cast (tempoScore_bounds sA.tempo_bpm sB.tempo_bpm).2
  have he : (energyTransitionScore sA.energy sB.energy : ℝ) ≤ 1 := by
    exact_mod_cast (energyTransitionScore_bounds sA.energy sB.energy).2
  have hph := cosineSimilarity_le_one (pA.getD (pA.length / 2) []) (pB.getD (pB.length / 2) [])
  split_ifs with htex
  · have := cosineSimilarity_le_one (avgPhraseVec pA) (avgPhraseVec pB)
    linarith
  · linarith

theorem recommendationOverall_nonneg (sA sB : TrackSummary) (pA pB : List (List ℚ))
    (hA : ∀ v ∈ pA, ∀ x ∈ v, 0 ≤ x) (hB : ∀ v ∈ pB, ∀ x ∈ v, 0 ≤ x) :
    0 ≤ recommendationOverall sA sB pA pB := by
  unfold recommendationOverall recommendCombined
  dsimp only
  have hk : (0 : ℝ) ≤ (harmonicScore sA.key sB.key : ℝ) := by
    exact_mod_cast harmonicScore_nonneg sA.key sB.key
  have ht : (0 : ℝ) ≤ (tempoScore sA.tempo_bpm sB.tempo_bpm : ℝ) := by
    have := (tempoScore_bounds sA.tempo_bpm sB.tempo_bpm).1
    have h10 : (1/10 : ℚ) ≤ tempoScore sA.tempo_bpm sB.tempo_bpm := this
    exact_mod_cast le_trans (by norm_num) h10
  have he : (0 : ℝ) ≤ (energyTransitionScore sA.energy sB.energy : ℝ) := by
    have h15 : (1/5 : ℚ) ≤ energyTransitionScore sA.energy sB.energy :=
      (energyTransitionScore_bounds sA.energy sB.energy).1
    exact_mod_cast le_trans (by norm_num) h15
  have hga : ∀ x ∈ pA.getD (pA.length / 2) [], 0 ≤ x := by
    rcases lt_or_ge (pA.length / 2) pA.length with hlt | hge
    · rw [List.getD_eq_getElem pA [] hlt]
      exact hA _ (List.getElem_mem hlt)
    · rw [List.getD_eq_default pA [] hge]
      simp
  have hgb : ∀ x ∈ pB.getD (pB.length / 2) [], 0 ≤ x := by
    rcases lt_or_ge (pB.length / 2) pB.length with hlt | hge
    · rw [List.getD_eq_getElem pB [] hlt]
      exact hB _ (List.getElem_mem hlt)
    · rw [List.getD_eq_default pB [] hge]
      simp
  have hph := cosineSimilarity_nonneg _ _ hga hgb
  split_ifs with htex
  · have := cosineSimilarity_nonneg _ _ (avgPhraseVec_nonneg pA hA) (avgPhraseVec_nonneg pB hB)
    linarith
  · linarith

/-! ## Retry-loop shape -/

/-- Whatever the handler does, the scheduled retry delays are exactly
`2 ^ r` seconds for the consecutive retry counts `r = retries+1, retries+2, …`,
at most `remaining` retries happen, and the handler runs once more than the
number of retries. -/
theorem runAnalysisLoop_spec {F : Type} (analysis : ℕ → Except String (TrackSummary × F)) :
    ∀ (remaining : ℕ) (st : WorkerState F) (attempt retries : ℕ),
      (runAnalysisLoop analysis st attempt retries remaining).2.1 =
        (List.range' (retries + 1)
          (runAnalysisLoop analysis st attempt retries remaining).2.1.length).map
            (fun r => 2 ^ r) ∧
      (runAnalysisLoop analysis st attempt retries remaining).2.1.length ≤ remaining ∧
      (runAnalysisLoop analysis st attempt retries remaining).2.2 =
        (runAnalysisLoop analysis st attempt retries remaining).2.1.length + 1 := by
  intro remaining
  induction remaining with
  | zero =>
    intro st attempt retries
    unfold runAnalysisLoop
    cases hstep : (analyzeHandler st (analysis attempt) attempt).2 <;> simp [hstep]
  | succ r ih =>
    intro st attempt retries
    unfold runAnalysisLoop
    cases hstep : (analyzeHandler st (analysis attempt) attempt).2 with
    | ok => simp [hstep]
    | failed msg =>
      simp only [hstep]
      obtain ⟨ih1, ih2, ih3⟩ :=
        ih (analyzeHandler st (analysis attempt) attempt).1 (attempt + 1) (retries + 1)
      refine ⟨?_, by simpa using ih2, by simpa using ih3⟩
      simp only [List.length_cons]
      rw [List.range'_succ, List.map_cons]
      exact congrArg (2 ^ (retries + 1) :: ·) ih1

/-! ## Concrete cosine values used by the claim instances -/

theorem dotFold_single (x y : ℚ) : dotFold [x] [y] = x * y := by
  rw [show dotFold [x] [y] = x * y + dotFold [] [] from dotFold_cons x y [] []]
  simp [dotFold]

theorem cosineSimilarity_one_one : cosineSimilarity [(1 : ℚ)] [(1 : ℚ)] = 1 := by
  apply cosineSimilarity_self
  rw [dotFold_single]
  norm_num

theorem cosineSimilarity_one_negOne : cosineSimilarity [(1 : ℚ)] [(-1 : ℚ)] = -1 := by
  unfold cosineSimilarity
  dsimp only
  rw [if_neg (by simp), if_neg (by rw [dotFold_single, dotFold_single]; norm_num)]
  rw [dotFold_single, dotFold_single, dotFold_single]
  norm_num [Real.sqrt_one]

/-! ## Concrete evaluations -/

theorem cosineSimilarity_zero_zero : cosineSimilarity [(0 : ℚ)] [(0 : ℚ)] = 0 := by
  unfold cosineSimilarity
  dsimp only
  rw [if_neg (by simp), if_pos (Or.inl (by simp [dotFold_single]))]

theorem mkCandidate_demo_eval :
    mkCandidate demoSummary demoSummary [[0]] [[0], [0], [0], [0]] 0 0 = some wCandidate := by
  unfold mkCandidate
  dsimp only
  rw [show ([[(0 : ℚ)]].getD 0 []) = [0] by simp,
    show ([[(0 : ℚ)], [0], [0], [0]].getD 0 []) = [0] by simp]
  rw [cosineSimilarity_zero_zero]
  rw [show harmonicScore demoSummary.key demoSummary.key = 1 by rw [harmonicScore_eq]; simp]
  rw [show tempoScore demoSummary.tempo_bpm demoSummary.tempo_bpm = 1 by
    unfold tempoScore; norm_num]
  rw [show energyTransitionScore demoSummary.energy demoSummary.energy = 1 by
    unfold energyTransitionScore; norm_num]
  rw [if_pos (by unfold candidateCombined; push_cast; norm_num)]
  unfold wCandidate
  congr 1
  all_goals norm_num [candidateCombined, demoSummary]

theorem generateCandidates_demo_eval :
    generateCandidates demoSummary demoSummary [[0]] [[0], [0], [0], [0]] 5 = [wCandidate] := by
  unfold generateCandidates
  dsimp only
  rw [show ([[(0 : ℚ)]] : List (List ℚ)).length = 1 by simp,
    show ([[(0 : ℚ)], [0], [0], [0]] : List (List ℚ)).length = 4 by simp]
  norm_num
  rw [show List.range 1 = [0] from rfl, List.filterMap_cons, mkCandidate_demo_eval]
  simp

theorem avgPhraseVec_one : avgPhraseVec [[(1 : ℚ)]] = [1] := by
  simp [avgPhraseVec, List.mapIdx_cons, List.mapIdx_nil]

theorem avgPhraseVec_negOne : avgPhraseVec [[(-1 : ℚ)]] = [-1] := by
  simp [avgPhraseVec, List.mapIdx_cons, List.mapIdx_nil]

/-- At the concrete input the recommendation engine's overall score is
`0.30·0 + 0.25·0.1 + 0.20·0.2 + 0.15·(−1) + 0.10·(−1) = −0.185`. -/
theorem recommendationOverall_cex_eval :
    recommendationOverall cexSourceSummary cexTargetSummary [[1]] [[-1]] = -(37/200 : ℝ) := by
  unfold recommendationOverall
  dsimp only
  rw [show harmonicScore cexSourceSummary.key cexTargetSummary.key = 0 by
    rw [harmonicScore_eq]
    simp [cexSourceSummary, cexTargetSummary, isKeyCompatible, parseIntJS, lastLetter]]
  rw [show tempoScore cexSourceSummary.tempo_bpm cexTargetSummary.tempo_bpm = 1/10 by
    unfold tempoScore; norm_num [cexSourceSummary, cexTargetSummary]]
  rw [show energyTransitionScore cexSourceSummary.energy cexTargetSummary.energy = 1/5 by
    unfold energyTransitionScore; norm_num [cexSourceSummary, cexTargetSummary]]
  rw [avgPhraseVec_one, avgPhraseVec_negOne]
  rw [if_pos (by simp)]
  rw [show ([[(1 : ℚ)]].getD ([[(1 : ℚ)]].length / 2) []) = [1] by simp,
    show ([[(-1 : ℚ)]].getD ([[(-1 : ℚ)]].length / 2) []) = [-1] by simp]
  rw [cosineSimilarity_one_negOne]
  unfold recommendCombined
  push_cast
  norm_num

/-! ## Claim theorems -/

/-- C1: the determinism contract — identical input bytes must always yield
identical outputs, every step a pure function with no randomness — is
violated by the code: `estimateKey` resolves a uniformly random Camelot
token without reading the file, and `estimateBPM` resolves
`120 + Math.random() * 20` on every path that finds no BPM metadata, so two
runs on the same file can yield different keys and tempos. -/
theorem estimation_not_deterministic :
    estimateKey "track.mp3" 0 ≠ estimateKey "track.mp3" 1 ∧
    estimateBPMFallback "track.mp3" 0 ≠ estimateBPMFallback "track.mp3" (1/2) := by
  constructor
  · decide
  · unfold estimateBPMFallback
    norm_num

/-- C2 counterexample: two uploads with byte-identical content `[1,2,3]` but
different artist metadata derive different track ids — `generateTrackId`
hashes `artist|title|size|digest`, not the digest alone — and the second
upload passes the duplicate gate and creates a second track instead of
being rejected. -/
theorem generateTrackId_metadata_dependent :
    generateTrackId (some "alice") none 3 (calculateDigest [1, 2, 3]) ≠
      generateTrackId (some "bob") none 3 (calculateDigest [1, 2, 3]) ∧
    uploadCheck [generateTrackId (some "alice") none 3 (calculateDigest [1, 2, 3])]
      (some "bob") none [1, 2, 3] =
      .created (generateTrackId (some "bob") none 3 (calculateDigest [1, 2, 3])) := by
  exact ⟨by decide, by decide⟩

/-- C2 (amended): the track id is a deterministic function of the declared
artist/title metadata together with the file size and the content digest, so
a second upload with identical bytes and identical metadata derives the same
id and is rejected as a duplicate (409). -/
theorem uploadCheck_dedups_identical_metadata (artist title : Option String)
    (fileBytes : List ℕ) :
    uploadCheck [generateTrackId artist title fileBytes.length (calculateDigest fileBytes)]
      artist title fileBytes =
      .duplicate (generateTrackId artist title fileBytes.length (calculateDigest fileBytes)) := by
  unfold uploadCheck
  simp

/-- C3 counterexample: the relative major/minor pair 8A/8B scores 0.65, not
the claimed 0.95 — the base `keyScore` is 0.5 there, so only the
`≥ 0.50 → 0.65` branch of `harmonicScore` can fire. -/
theorem harmonicScore_relative_pair_value :
    harmonicScore "8A" "8B" = 13/20 ∧ (13/20 : ℚ) ≠ 19/20 := by
  constructor
  · rw [harmonicScore_eq, if_neg (by decide), if_pos (by decide)]
  · norm_num

/-- C3 (amended): on all 24 valid Camelot tokens the table is — identical
key → 1.0; compatible key (same number different letter, or adjacent number
same letter with the 1↔12 wrap) → 0.65; anything else → 0.0.  The spec's
0.95 and 0.85 rows are unreachable because `keyScore` only produces 0, 0.5
and 1. -/
theorem harmonicScore_camelot_table (k1 : String) (h1 : k1 ∈ camelotKeys)
    (k2 : String) (h2 : k2 ∈ camelotKeys) :
    harmonicScore k1 k2 =
      if k1 = k2 then 1 else if isKeyCompatible k1 k2 then 13/20 else 0 :=
  harmonicScore_eq k1 k2

/-- C4 counterexample: with the extractor's fixed 80-sample envelope and 20
bars every bar vector has 4 + ⌊80/20⌋ = 8 dimensions, not 128 — the
`.slice(0, 128)` truncates but nothing ever zero-pads. -/
theorem barVector_dimension_cex :
    ∃ v ∈ generateBarVectors (List.replicate 80 (0 : ℝ)) 20, v.length ≠ 128 := by
  unfold generateBarVectors
  dsimp only
  refine ⟨_, List.mem_map.mpr ⟨0, by simp, rfl⟩, ?_⟩
  rw [barVector_length, barWindow_length _ 20 0 (by norm_num)]
  simp

/-- C4 (amended): bar-vector and phrase-vector counts equal `bars` and
`phrases`, and every phrase vector has exactly 256 dimensions, but a bar
vector has `min 128 (4 + min 124 ⌊W / bars⌋)` dimensions — truncated, never
padded — which is below 128 whenever the envelope (fixed length 80) has
fewer than 124·bars samples. -/
theorem featureVector_dimension_spec (waveform : List ℝ) (barCount phraseCount : ℕ)
    (barVecs : List (List ℝ)) :
    (generateBarVectors waveform barCount).length = barCount ∧
    (∀ v ∈ generateBarVectors waveform barCount,
      v.length = min 128 (4 + min 124 (waveform.length / barCount))) ∧
    (generatePhraseVectors barVecs phraseCount).length = phraseCount ∧
    (∀ v ∈ generatePhraseVectors barVecs phraseCount, v.length = 256) :=
  ⟨generateBarVectors_length _ _, fun _ hv => generateBarVectors_member_length hv,
   generatePhraseVectors_length _ _, fun _ hv => generatePhraseVectors_member_length hv⟩

/-- C5 counterexample: on vectors of unequal length `cosineSimilarity`
returns the value 0 — there is no `DimensionMismatchError` path in the
function at all. -/
theorem cosineSimilarity_mismatch_returns_zero :
    cosineSimilarity [1] [1, 1] = 0 := by
  unfold cosineSimilarity
  rw [if_pos (by simp)]

/-- C5 (amended): `cosineSimilarity` computes dot/(‖a‖·‖b‖) on equal-length
vectors with nonzero norms, returns 0 when either vector is all-zero, and —
instead of raising `DimensionMismatchError` — returns 0 on a length
mismatch. -/
theorem cosineSimilarity_spec (a b : List ℚ) :
    (a.length ≠ b.length → cosineSimilarity a b = 0) ∧
    ((∀ x ∈ a, x = 0) → cosineSimilarity a b = 0) ∧
    ((∀ x ∈ b, x = 0) → cosineSimilarity a b = 0) ∧
    (a.length = b.length → dotFold a a ≠ 0 → dotFold b b ≠ 0 →
      cosineSimilarity a b =
        (dotFold a b : ℝ) /
          (Real.sqrt (dotFold a a : ℝ) * Real.sqrt (dotFold b b : ℝ))) := by
  refine ⟨fun h => ?_, fun h => ?_, fun h => ?_, fun hlen hA hB => ?_⟩
  · unfold cosineSimilarity
    rw [if_pos h]
  · unfold cosineSimilarity
    dsimp only
    split_ifs with hl hz
    · rfl
    · rfl
    · exact absurd (Or.inl (dotFold_self_zero a h)) hz
  · unfold cosineSimilarity
    dsimp only
    split_ifs with hl hz
    · rfl
    · rfl
    · exact absurd (Or.inr (dotFold_self_zero b h)) hz
  · unfold cosineSimilarity
    dsimp only
    rw [if_neg (by simp [hlen]), if_neg (by simp [hA, hB])]

/-- C6: on handler failure a retry is scheduled after `2 ^ retryCount`
seconds (the re-enqueued job's retry count: 2 s, 4 s, 8 s) with the retry
count capped at 3; a handler failing on every attempt runs 4 times (1 + 3
retries, never a 4th retry) and leaves the manifest in `error` with the
thrown reason; one that fails twice and then succeeds ends `ready` with a
summary. -/
theorem worker_retry_policy :
    (∀ (F : Type) (analysis : ℕ → Except String (TrackSummary × F)) (st : WorkerState F),
      (runAnalysisJob analysis st).2.1 =
        (List.range' 1 (runAnalysisJob analysis st).2.1.length).map (fun r => 2 ^ r) ∧
      (runAnalysisJob analysis st).2.1.length ≤ 3 ∧
      (runAnalysisJob analysis st).2.2 = (runAnalysisJob analysis st).2.1.length + 1) ∧
    ((runAnalysisJob alwaysFailAnalysis queuedState).2.1 = [2, 4, 8] ∧
      (runAnalysisJob alwaysFailAnalysis queuedState).2.2 = 4 ∧
      (runAnalysisJob alwaysFailAnalysis queuedState).1.manifest.map
        (fun m => (m.status, m.error_reason)) = some (.error, some "decode failed")) ∧
    ((runAnalysisJob failTwiceAnalysis queuedState).2.1 = [2, 4] ∧
      (runAnalysisJob failTwiceAnalysis queuedState).2.2 = 3 ∧
      (runAnalysisJob failTwiceAnalysis queuedState).1.manifest.map
        (fun m => (m.status, m.summary.isSome)) = some (.ready, true)) := by
  refine ⟨fun F analysis st => ?_, ⟨by decide, by decide, by decide⟩,
    ⟨by decide, by decide, by decide⟩⟩
  simpa only [runAnalysisJob] using runAnalysisLoop_spec analysis 3 st 0 0

/-- C7: every transition candidate `generateCandidates` returns scores
strictly above the 0.4 threshold (hence ≥ 0.4) and carries exactly the
weighted combination 0.30·harmonic + 0.25·tempo + 0.20·energy +
0.15·timing + 0.10·contour of its sub-scores, with the harmonic, tempo and
energy sub-scores computed from the two summaries; the returned list is
sorted by descending score and has at most k entries. -/
theorem generateCandidates_spec (sA sB : TrackSummary) (pA pB : List (List ℚ)) (k : ℕ) :
    (generateCandidates sA sB pA pB k).length ≤ k ∧
    List.Sorted candidateOrder (generateCandidates sA sB pA pB k) ∧
    ∀ c ∈ generateCandidates sA sB pA pB k,
      (0.4 : ℝ) < c.score ∧
      c.score = candidateCombined c.scores.key c.scores.tempo c.scores.energy
        c.scores.timing c.scores.contour ∧
      c.scores.key = harmonicScore sA.key sB.key ∧
      c.scores.tempo = tempoScore sA.tempo_bpm sB.tempo_bpm ∧
      c.scores.energy = energyTransitionScore sA.energy sB.energy := by
  refine ⟨generateCandidates_length_le sA sB pA pB k,
    generateCandidates_sorted sA sB pA pB k, fun c hc => ?_⟩
  rcases mem_generateCandidates hc with ⟨i, j, hi, hj, heq⟩
  rcases mkCandidate_some heq with ⟨hk, he, ht, _, _, hsc, hgt, _, _⟩
  exact ⟨hgt, hsc, hk, ht, he⟩

/-- C8 counterexample: the overall recommendation score is not confined to
[0, 1] for all inputs — stored phrase vectors with a negative entry drive
the texture and phrase cosines to −1, and the computed overall score to
−0.185 < 0. -/
theorem recommendationOverall_negative :
    recommendationOverall cexSourceSummary cexTargetSummary [[1]] [[-1]] < 0 := by
  rw [recommendationOverall_cex_eval]
  norm_num

/-- C8 (amended): both documented weight sets sum to exactly 1.0; every
candidate score generateCandidates emits lies in [0, 1]; the recommendation
overall score is at most 1 for all inputs and nonnegative whenever the
phrase vectors involved are entrywise nonnegative (as every
extractor-produced vector is) — but not for arbitrary stored vectors. -/
theorem combined_score_bounds :
    candidateCombined 1 1 1 1 1 = 1 ∧
    recommendCombined 1 1 1 1 1 = 1 ∧
    (∀ (sA sB : TrackSummary) (pA pB : List (List ℚ)) (k : ℕ),
      ∀ c ∈ generateCandidates sA sB pA pB k, 0 ≤ c.score ∧ c.score ≤ 1) ∧
    (∀ (sA sB : TrackSummary) (pA pB : List (List ℚ)),
      recommendationOverall sA sB pA pB ≤ 1) ∧
    (∀ (sA sB : TrackSummary) (pA pB : List (List ℚ)),
      (∀ v ∈ pA, ∀ x ∈ v, 0 ≤ x) → (∀ v ∈ pB, ∀ x ∈ v, 0 ≤ x) →
      0 ≤ recommendationOverall sA sB pA pB) := by
  refine ⟨by unfold candidateCombined; norm_num, by unfold recommendCombined; norm_num,
    fun sA sB pA pB k c hc => ?_, fun sA sB pA pB => recommendationOverall_le_one sA sB pA pB,
    fun sA sB pA pB hA hB => recommendationOverall_nonneg sA sB pA pB hA hB⟩
  have h1 := generateCandidates_score_le_one hc
  rcases mem_generateCandidates hc with ⟨i, j, _, _, heq⟩
  have h04 := (mkCandidate_some heq).2.2.2.2.2.2.1
  exact ⟨le_trans (by norm_num) h04.le, h1⟩

/-- C9: the analyze handler checks the manifest first: on a `ready` manifest
with its summary attached (the only kind of ready manifest the worker
writes) it returns without recomputation, leaving the manifest, the stored
feature files and the whole state untouched for every possible analysis
outcome, and the queued job then makes exactly one attempt with no retries. -/
theorem analyzeHandler_ready_idempotent {F : Type} (st : WorkerState F)
    (analysis : Except String (TrackSummary × F)) (now : ℕ) (m : TrackManifest)
    (s : TrackSummary) (hm : st.manifest = some m) (hst : m.status = TrackStatus.ready)
    (hsum : m.summary = some s) :
    analyzeHandler st analysis now = (st, .ok) ∧
    (∀ seq : ℕ → Except String (TrackSummary × F), runAnalysisJob seq st = (st, [], 1)) := by
  have hgen : ∀ (a : Except String (TrackSummary × F)) (t : ℕ),
      analyzeHandler st a t = (st, .ok) := by
    intro a t
    unfold analyzeHandler
    rw [hm]
    dsimp only
    rw [if_pos ⟨hst, by simp [hsum]⟩]
  refine ⟨hgen analysis now, fun seq => ?_⟩
  unfold runAnalysisJob runAnalysisLoop
  rw [hgen (seq 0) 0]

/-- C10: `searchSimilar` has no own-track exclusion: when the query track's
entry sits ready in the corpus, the gathered hit list contains the query
segment itself — same track id, its own timestamp, similarity 1.0 — and
whenever k covers the hit list the returned top-k list still contains it. -/
theorem searchSimilar_includes_query_track (f : TrackFeatures) (corpus : List CorpusEntry)
    (position : ℚ) (scope : VecScope) (k : ℕ) (e : CorpusEntry) (he : e ∈ corpus)
    (hready : e.status = TrackStatus.ready) (hsum : e.summary ≠ none)
    (hfeat : e.features = some f) (hlen : 0 < (scopeVecs f scope).length)
    (href : dotFold (refVecOf f position scope) (refVecOf f position scope) ≠ 0) :
    (∃ hit ∈ searchSimilarHits f corpus position scope,
      hit.track_id = e.track_id ∧ hit.score = 1 ∧
      hit.position =
        ((refIndexOf (scopeVecs f scope).length position f.summary.duration : ℚ) /
          ((scopeVecs f scope).length : ℚ)) * f.summary.duration) ∧
    ((searchSimilarHits f corpus position scope).length ≤ k →
      ∃ hit ∈ searchSimilar f corpus position scope k,
        hit.track_id = e.track_id ∧ hit.score = 1) := by
  have hidx : refIndexOf (scopeVecs f scope).length position f.summary.duration <
      (scopeVecs f scope).length := by
    have h := min_le_right (((position / f.summary.duration) *
      ((scopeVecs f scope).length : ℚ)).floor.toNat) ((scopeVecs f scope).length - 1)
    unfold refIndexOf
    omega
  have hgetD : (scopeVecs f scope).getD
      (refIndexOf (scopeVecs f scope).length position f.summary.duration) [] =
      refVecOf f position scope := rfl
  have hmem : SearchHit.mk e.track_id
      (((refIndexOf (scopeVecs f scope).length position f.summary.duration : ℚ) /
        ((scopeVecs f scope).length : ℚ)) * f.summary.duration)
      (cosineSimilarity (refVecOf f position scope)
        ((scopeVecs f scope).getD
          (refIndexOf (scopeVecs f scope).length position f.summary.duration) [])) ∈
      scanCorpusTrack (refVecOf f position scope) scope e := by
    unfold scanCorpusTrack
    rw [if_pos ⟨hready, hsum⟩, hfeat]
    exact List.mem_map.mpr
      ⟨refIndexOf (scopeVecs f scope).length position f.summary.duration,
        List.mem_range.mpr hidx, rfl⟩
  have hscore : cosineSimilarity (refVecOf f position scope)
      ((scopeVecs f scope).getD
        (refIndexOf (scopeVecs f scope).length position f.summary.duration) []) = 1 := by
    rw [hgetD]
    exact cosineSimilarity_self _ href
  have hhits : SearchHit.mk e.track_id
      (((refIndexOf (scopeVecs f scope).length position f.summary.duration : ℚ) /
        ((scopeVecs f scope).length : ℚ)) * f.summary.duration)
      (cosineSimilarity (refVecOf f position scope)
        ((scopeVecs f scope).getD
          (refIndexOf (scopeVecs f scope).length position f.summary.duration) [])) ∈
      searchSimilarHits f corpus position scope := by
    unfold searchSimilarHits
    exact List.mem_flatMap.mpr ⟨e, he, hmem⟩
  refine ⟨⟨_, hhits, rfl, hscore, rfl⟩, fun hk => ?_⟩
  unfold searchSimilar
  rw [List.take_of_length_le
    (by rw [(List.perm_insertionSort hitOrder _).length_eq]; exact hk)]
  exact ⟨_, (List.mem_insertionSort hitOrder).mpr hhits, rfl, hscore⟩

/-! ## Witness instances for the claim theorems with hypotheses -/

/-- Witness for C3 at the concrete adjacent pair 8A/9A. -/
theorem harmonicScore_camelot_table_witness :
    ("8A" ∈ camelotKeys) ∧ ("9A" ∈ camelotKeys) ∧
    harmonicScore "8A" "9A" =
      (if ("8A" : String) = "9A" then 1 else if isKeyCompatible "8A" "9A" then 13/20 else 0) :=
  ⟨by decide, by decide, harmonicScore_camelot_table "8A" (by decide) "9A" (by decide)⟩

/-- Witness for C4 on the 80-sample envelope with 20 bars and 2 phrases. -/
theorem featureVector_dimension_spec_witness :
    (generateBarVectors (List.replicate 80 (0 : ℝ)) 20).length = 20 ∧
    ((generatePhraseVectors (generateBarVectors (List.replicate 80 (0 : ℝ)) 20) 2).getD 0
      []).length = 256 := by
  constructor
  · exact (featureVector_dimension_spec (List.replicate 80 (0 : ℝ)) 20 2 []).1
  · apply (featureVector_dimension_spec (List.replicate 80 (0 : ℝ)) 20 2
      (generateBarVectors (List.replicate 80 (0 : ℝ)) 20)).2.2.2
    have h0 : 0 < (generatePhraseVectors
        (generateBarVectors (List.replicate 80 (0 : ℝ)) 20) 2).length := by
      rw [generatePhraseVectors_length]
      norm_num
    rw [List.getD_eq_getElem _ [] h0]
    exact List.getElem_mem h0

/-- Witness for C5 at a length mismatch and a concrete unit pair. -/
theorem cosineSimilarity_spec_witness :
    cosineSimilarity [(1 : ℚ), 2] [] = 0 ∧
    cosineSimilarity [(1 : ℚ)] [(1 : ℚ)] =
      (dotFold [(1 : ℚ)] [(1 : ℚ)] : ℝ) /
        (Real.sqrt (dotFold [(1 : ℚ)] [(1 : ℚ)] : ℝ) *
          Real.sqrt (dotFold [(1 : ℚ)] [(1 : ℚ)] : ℝ)) :=
  ⟨(cosineSimilarity_spec [1, 2] []).1 (by simp),
   (cosineSimilarity_spec [1] [1]).2.2.2 (by simp)
     (by simp [dotFold_single]) (by simp [dotFold_single])⟩

/-- Witness for C7 at the concrete demo pair, whose candidate list evaluates
to the single candidate `wCandidate`. -/
theorem generateCandidates_spec_witness :
    wCandidate ∈ generateCandidates demoSummary demoSummary [[0]] [[0], [0], [0], [0]] 5 ∧
    (0.4 : ℝ) < wCandidate.score := by
  have hm : wCandidate ∈ generateCandidates demoSummary demoSummary [[0]] [[0], [0], [0], [0]] 5 := by
    rw [generateCandidates_demo_eval]
    exact List.mem_singleton.mpr rfl
  exact ⟨hm, ((generateCandidates_spec demoSummary demoSummary [[0]] [[0], [0], [0], [0]] 5).2.2
    wCandidate hm).1⟩

/-- Witness for C8 at the demo candidate and nonnegative phrase vectors. -/
theorem combined_score_bounds_witness :
    (wCandidate ∈ generateCandidates demoSummary demoSummary [[0]] [[0], [0], [0], [0]] 5) ∧
    (0 ≤ wCandidate.score ∧ wCandidate.score ≤ 1) ∧
    0 ≤ recommendationOverall demoSummary demoSummary [[1]] [[1]] := by
  have hm : wCandidate ∈ generateCandidates demoSummary demoSummary [[0]] [[0], [0], [0], [0]] 5 := by
    rw [generateCandidates_demo_eval]
    exact List.mem_singleton.mpr rfl
  have hnn : ∀ v ∈ [[(1 : ℚ)]], ∀ x ∈ v, 0 ≤ x := by
    intro v hv x hx
    rw [List.mem_singleton] at hv
    subst hv
    rw [List.mem_singleton] at hx
    subst hx
    norm_num
  exact ⟨hm, combined_score_bounds.2.2.1 demoSummary demoSummary [[0]] [[0], [0], [0], [0]] 5
    wCandidate hm, combined_score_bounds.2.2.2.2 demoSummary demoSummary [[1]] [[1]] hnn hnn⟩

/-- Witness for C9 on a ready manifest with a summary: even a failing
analysis leaves the state untouched. -/
theorem analyzeHandler_ready_idempotent_witness :
    analyzeHandler readyState (Except.error "boom") 5 = (readyState, .ok) ∧
    runAnalysisJob alwaysFailAnalysis readyState = (readyState, [], 1) := by
  have h := analyzeHandler_ready_idempotent readyState (Except.error "boom") 5
    { track_id := "t1", status := .ready, summary := some demoSummary } demoSummary
    rfl rfl rfl
  exact ⟨h.1, h.2 alwaysFailAnalysis⟩

/-- Witness for C10 on a one-track corpus holding the query itself. -/
theorem searchSimilar_includes_query_track_witness :
    ∃ hit ∈ searchSimilar selfFeatures [selfEntry] 0 VecScope.phrase 10,
      hit.track_id = selfEntry.track_id ∧ hit.score = 1 := by
  have h := searchSimilar_includes_query_track selfFeatures [selfEntry] 0 .phrase 10 selfEntry
    (by simp) rfl (by simp [selfEntry]) rfl
    (by simp [selfFeatures, scopeVecs])
    (by simp [refVecOf, scopeVecs, selfFeatures, refIndexOf, dotFold_single])
  apply h.2
  simp [searchSimilarHits, scanCorpusTrack, selfEntry, selfFeatures, scopeVecs]

end Tektonic
